import Mathlib

/-!
Verification of the book recommendation system against its specification.

Each definition below is a shallow embedding of a function of the Python
source; database query results (SQL / MongoDB) are modelled as snapshot
parameters, floating point numbers as exact rationals or reals.
-/

/-! ## Generic stable descending sort

Models Python's `list.sort(key=..., reverse=True)`: a stable sort placing
larger keys first; elements with equal keys keep their original order. -/

/-- Insert `x` into `l` before the first element whose key is not larger
than `key x` (stable descending insertion). -/
def insertScoredDesc {α β : Type} [LinearOrder β] (key : α → β) (x : α) : List α → List α
  | [] => [x]
  | y :: ys => if key y ≤ key x then x :: y :: ys else y :: insertScoredDesc key x ys

/-- Stable descending insertion sort by `key`; models Python's
`sort(key=..., reverse=True)` (Timsort is stable). -/
def sortByDesc {α β : Type} [LinearOrder β] (key : α → β) : List α → List α
  | [] => []
  | x :: xs => insertScoredDesc key x (sortByDesc key xs)

theorem mem_insertScoredDesc {α β : Type} [LinearOrder β] (key : α → β) (x a : α)
    (l : List α) : a ∈ insertScoredDesc key x l ↔ a = x ∨ a ∈ l := by
  induction l with
  | nil => simp [insertScoredDesc]
  | cons y ys ih =>
      by_cases h : key y ≤ key x
      · simp [insertScoredDesc, h]
      · simp [insertScoredDesc, h, ih]
        tauto

theorem mem_sortByDesc {α β : Type} [LinearOrder β] (key : α → β) (a : α)
    (l : List α) : a ∈ sortByDesc key l ↔ a ∈ l := by
  induction l with
  | nil => simp [sortByDesc]
  | cons x xs ih => simp [sortByDesc, mem_insertScoredDesc, ih]

theorem length_insertScoredDesc {α β : Type} [LinearOrder β] (key : α → β) (x : α)
    (l : List α) : (insertScoredDesc key x l).length = l.length + 1 := by
  induction l with
  | nil => simp [insertScoredDesc]
  | cons y ys ih =>
      by_cases h : key y ≤ key x
      · simp [insertScoredDesc, h]
      · simp [insertScoredDesc, h, ih]

theorem length_sortByDesc {α β : Type} [LinearOrder β] (key : α → β)
    (l : List α) : (sortByDesc key l).length = l.length := by
  induction l with
  | nil => rfl
  | cons x xs ih => simp [sortByDesc, length_insertScoredDesc, ih]

theorem pairwise_insertScoredDesc {α β : Type} [LinearOrder β] (key : α → β) (x : α)
    (l : List α) (h : l.Pairwise (fun a b => key b ≤ key a)) :
    (insertScoredDesc key x l).Pairwise (fun a b => key b ≤ key a) := by
  induction l with
  | nil => simp [insertScoredDesc]
  | cons y ys ih =>
      rcases List.pairwise_cons.mp h with ⟨hy, hys⟩
      by_cases hle : key y ≤ key x
      · rw [insertScoredDesc, if_pos hle]
        refine List.pairwise_cons.mpr ⟨?_, h⟩
        intro z hz
        rcases List.mem_cons.mp hz with rfl | hz'
        · exact hle
        · exact le_trans (hy z hz') hle
      · rw [insertScoredDesc, if_neg hle]
        refine List.pairwise_cons.mpr ⟨?_, ih hys⟩
        intro z hz
        rcases (mem_insertScoredDesc key x z ys).mp hz with rfl | hz'
        · exact le_of_lt (lt_of_not_le hle)
        · exact hy z hz'

theorem pairwise_sortByDesc {α β : Type} [LinearOrder β] (key : α → β)
    (l : List α) : (sortByDesc key l).Pairwise (fun a b => key b ≤ key a) := by
  induction l with
  | nil => simp [sortByDesc]
  | cons x xs ih => exact pairwise_insertScoredDesc key x _ ih

theorem filter_insertScoredDesc {α β : Type} [LinearOrder β] (key : α → β) (x : α)
    (l : List α) (v : β) :
    (insertScoredDesc key x l).filter (fun a => decide (key a = v)) =
      (x :: l).filter (fun a => decide (key a = v)) := by
  induction l with
  | nil => simp [insertScoredDesc]
  | cons y ys ih =>
      by_cases hle : key y ≤ key x
      · simp [insertScoredDesc, hle]
      · have hxy : key x < key y := lt_of_not_le hle
        rw [insertScoredDesc, if_neg hle]
        by_cases hyv : key y = v
        · have hxv : ¬ key x = v := by
            intro hx
            exact absurd (hx.trans hyv.symm) (ne_of_lt hxy)
          simp [List.filter_cons, hyv, hxv, ih]
        · simp [List.filter_cons, hyv, ih]

theorem filter_sortByDesc {α β : Type} [LinearOrder β] (key : α → β)
    (l : List α) (v : β) :
    (sortByDesc key l).filter (fun a => decide (key a = v)) =
      l.filter (fun a => decide (key a = v)) := by
  induction l with
  | nil => rfl
  | cons x xs ih =>
      rw [sortByDesc, filter_insertScoredDesc, List.filter_cons, List.filter_cons, ih]

/-! ## Popularity/Quality Scorer (scripts/insert_new_data.py)

`update_book_metrics` recomputes aggregate book metrics from the list of
ratings of the book; `insert_new_book` initialises the stored metrics. -/

/-- Embedding of `rating_score = (total_score + 5 * 5) / (total_ratings + 5)`
(line 270 of scripts/insert_new_data.py, the Bayesian average with
prior weight 5 and prior mean 5). -/
def rating_score (total_score total_ratings : ℚ) : ℚ :=
  (total_score + 5 * 5) / (total_ratings + 5)

/-- The `rating_score` value stored by `insert_new_book` before any rating
exists (line 144 of scripts/insert_new_data.py). -/
def initial_rating_score : ℚ := 0

/-- The `r_avg` computed by `update_book_metrics`: `total_score / total_ratings`
when there are ratings, 0 otherwise (line 246). -/
def avg_rating (ratings : List ℚ) : ℚ :=
  if ratings.length = 0 then 0 else ratings.sum / ratings.length

/-- The stored `rating_score` for a book whose full list of ratings is
`ratings`: `update_book_metrics` returns without writing when the book has
no ratings (line 240-241), leaving the `insert_new_book` initial value; with
ratings it stores the Bayesian average of line 270. -/
def storedRatingScore (ratings : List ℚ) : ℚ :=
  if ratings.isEmpty then initial_rating_score
  else rating_score ratings.sum ratings.length

/-- C1 counterexample: a book with `count == 0` has stored quality score `0.0`
(the `insert_new_book` initial value, never overwritten because
`update_book_metrics` returns early on an empty rating distribution), not the
prior mean 5 claimed by the specification. -/
theorem storedRatingScore_empty_ne_prior : storedRatingScore [] = 0 ∧ storedRatingScore [] ≠ 5 := by
  constructor
  · rfl
  · decide

/-- C1 (amended): for a book with at least one rating the Bayesian quality
score lies strictly between the plain average and the prior mean 5 whenever
the average differs from 5, and equals 5 when the average equals 5; for a book
with no ratings the stored score is the initial value 0, not 5. -/
theorem rating_score_shrinkage (ratings : List ℚ) (h : ratings ≠ []) :
    (avg_rating ratings < 5 →
      avg_rating ratings < rating_score ratings.sum ratings.length ∧
      rating_score ratings.sum ratings.length < 5) ∧
    (5 < avg_rating ratings →
      5 < rating_score ratings.sum ratings.length ∧
      rating_score ratings.sum ratings.length < avg_rating ratings) ∧
    (avg_rating ratings = 5 → rating_score ratings.sum ratings.length = 5) ∧
    storedRatingScore [] = 0 := by
  have hlen : ratings.length ≠ 0 := fun hl => h (List.length_eq_zero.mp hl)
  have hc : (0 : ℚ) < ratings.length := by
    exact_mod_cast Nat.pos_of_ne_zero hlen
  set T : ℚ := ratings.sum with hT
  set c : ℚ := (ratings.length : ℚ) with hcdef
  have hc5 : (0 : ℚ) < c + 5 := by linarith
  have havg : avg_rating ratings = T / c := by
    simp [avg_rating, hlen, hT, hcdef]
  have hq : rating_score ratings.sum ratings.length = (T + 25) / (c + 5) := by
    simp [rating_score, hT, hcdef]
    norm_num
  refine ⟨?_, ?_, ?_, rfl⟩
  · intro hlt
    rw [havg] at hlt ⊢
    rw [hq]
    have hT5c : T < 5 * c := by
      have := (div_lt_iff₀ hc).mp hlt
      linarith
    constructor
    · rw [div_lt_div_iff₀ hc hc5]
      nlinarith
    · rw [div_lt_iff₀ hc5]
      nlinarith
  · intro hlt
    rw [havg] at hlt ⊢
    rw [hq]
    have hT5c : 5 * c < T := by
      have := (lt_div_iff₀ hc).mp hlt
      linarith
    constructor
    · rw [lt_div_iff₀ hc5]
      nlinarith
    · rw [div_lt_div_iff₀ hc5 hc]
      nlinarith
  · intro heq
    rw [havg] at heq
    have hT5c : T = 5 * c := by
      have := (div_eq_iff (ne_of_gt hc)).mp heq
      linarith
    rw [hq, hT5c]
    rw [div_eq_iff (ne_of_gt hc5)]
    ring

/-- Witness for `rating_score_shrinkage` at the rating list `[7]`. -/
theorem rating_score_shrinkage_witness :
    5 < avg_rating [7] ∧
    5 < rating_score (List.sum [7]) (List.length [7]) ∧
    rating_score (List.sum [7]) (List.length [7]) < avg_rating [7] :=
  ⟨by norm_num [avg_rating],
    (rating_score_shrinkage [7] (by decide)).2.1 (by norm_num [avg_rating])⟩

/-! ## Cold-Start Fallback guard (scripts/recommendations/recommendation_cold_start.py)

`main` checks the user's rating count and declines with a "not a cold-start
case" message when it is above 20 (line 279: `if rating_count > 20`). -/

/-- Number of ratings of a user, embedding `get_user_rating_count`
(`SELECT COUNT(*) FROM ratings WHERE user_id = ...`). -/
def user_rating_count (ratings : List (Int × String)) (user_id : Int) : ℕ :=
  (ratings.filter (fun r => r.1 == user_id)).length

/-- Whether `main` of recommendation_cold_start.py proceeds with the
demographic cold-start path: it returns early exactly when
`rating_count > 20` (line 279). -/
def cold_start_proceeds (rating_count : ℕ) : Bool :=
  if 20 < rating_count then false else true

/-- C9 counterexample: a user with exactly 20 ratings is NOT below the
threshold 20, yet the code still takes the cold-start path (the guard is
`rating_count > 20`, not `rating_count >= 20`), so the cold-start path does
not run exactly when the count is below 20. -/
theorem cold_start_at_twenty :
    cold_start_proceeds 20 = true ∧ decide (20 < 20) = false := by
  decide

/-- C9 (amended): the cold-start path of `main` runs exactly when the target
user's rating count is at most 20; it declines and defers to the personalized
recommenders exactly when the count exceeds 20. -/
theorem cold_start_proceeds_iff (ratings : List (Int × String)) (user_id : Int) :
    cold_start_proceeds (user_rating_count ratings user_id) =
      decide (user_rating_count ratings user_id ≤ 20) := by
  by_cases h : 20 < user_rating_count ratings user_id
  · simp [cold_start_proceeds, h, Nat.not_le.mpr h]
  · simp [cold_start_proceeds, h, Nat.not_lt.mp h]

/-! ## Hybrid weight handling (scripts/recommendations/recommendation_hybrid.py, `main`)

Lines 360-364 normalize the three caller-supplied weights by their sum before
calling `get_hybrid_recommendations`. There is no validation and no
`ConfigurationError` anywhere in the code: a zero total makes the Python
division raise `ZeroDivisionError` (modelled as `none`); any other total —
including configurations with negative components — is silently divided
through. -/

/-- Embedding of the weight normalization in `main` (lines 361-364):
`total_weight = content + collab + popularity`, each weight divided by the
total. `none` models the `ZeroDivisionError` Python raises when the total is
zero; no other failure is possible. -/
def normalize_weights (content_weight collab_weight popularity_weight : ℚ) :
    Option (ℚ × ℚ × ℚ) :=
  let total_weight := content_weight + collab_weight + popularity_weight
  if total_weight = 0 then none
  else some (content_weight / total_weight, collab_weight / total_weight,
    popularity_weight / total_weight)

/-- C3 counterexample: the malformed configuration `(-1, 2, 1)` (negative
content weight) does not fail at all — `main` silently normalizes it to
`(-1/2, 1, 1/2)` and proceeds; no `ConfigurationError` exists in the code. -/
theorem normalize_weights_negative_silently :
    normalize_weights (-1) 2 1 = some (-(1/2), 1, 1/2) := by
  norm_num [normalize_weights]

/-- C3 (amended): the hybrid `main` never raises a `ConfigurationError` (no
such class exists): whenever the three weights sum to zero — in particular the
all-zero configuration — the normalization divides by zero
(`ZeroDivisionError`), and for every other configuration, negative components
included, the weights are silently normalized by their sum. -/
theorem normalize_weights_spec (content_weight collab_weight popularity_weight : ℚ) :
    (content_weight + collab_weight + popularity_weight = 0 →
      normalize_weights content_weight collab_weight popularity_weight = none) ∧
    (content_weight + collab_weight + popularity_weight ≠ 0 →
      normalize_weights content_weight collab_weight popularity_weight =
        some (content_weight / (content_weight + collab_weight + popularity_weight),
          collab_weight / (content_weight + collab_weight + popularity_weight),
          popularity_weight / (content_weight + collab_weight + popularity_weight))) := by
  constructor
  · intro h
    simp [normalize_weights, h]
  · intro h
    simp [normalize_weights, h]

/-- Witness for `normalize_weights_spec`: the all-zero configuration hits the
zero-total branch, and the configuration `(-1, 2, 1)` hits the silent
normalization branch. -/
theorem normalize_weights_spec_witness :
    normalize_weights 0 0 0 = none ∧
    normalize_weights (-1) 2 1 = some ((-1) / (-1 + 2 + 1), 2 / (-1 + 2 + 1), 1 / (-1 + 2 + 1)) :=
  ⟨(normalize_weights_spec 0 0 0).1 (by norm_num),
    (normalize_weights_spec (-1) 2 1).2 (by norm_num)⟩

/-! ## Author diversity pass (scripts/recommendations/recommendation_diverse.py)

`ensure_author_diversity` walks the score-ordered recommendation list once,
keeping a per-primary-author counter, and keeps an entry only while that
author's counter is below `max_per_author`. -/

/-- A recommendation entry as consumed by `ensure_author_diversity`:
`authors` is `rec.get("metadata", {}).get("authors", "")`. -/
structure DivRec where
  isbn : String
  score : ℚ
  authors : String
deriving DecidableEq

/-- Primary author of a serialized author field:
`authors.split(",")[0].strip() if authors else "Unknown"` (line 207 of
recommendation_diverse.py). -/
def primary_author (authors : String) : String :=
  if authors = "" then "Unknown" else ((authors.splitOn ",").headD "").trim

/-- Lookup in the per-author counter (`defaultdict(int)`): 0 when absent. -/
def authorCount : List (String × ℕ) → String → ℕ
  | [], _ => 0
  | (b, n) :: rest, a => if b = a then n else authorCount rest a

/-- Increment the per-author counter (`author_counts[primary_author] += 1`). -/
def bumpAuthor : List (String × ℕ) → String → List (String × ℕ)
  | [], a => [(a, 1)]
  | (b, n) :: rest, a => if b = a then (b, n + 1) :: rest else (b, n) :: bumpAuthor rest a

/-- The single pass of `ensure_author_diversity` (lines 202-211): keep a
record only while its primary author's counter is below the cap, bumping the
counter for kept records and skipping over-quota ones. -/
def ensure_author_diversity_aux (max_per_author : ℕ) (counts : List (String × ℕ)) :
    List DivRec → List DivRec
  | [] => []
  | r :: rs =>
    if authorCount counts (primary_author r.authors) < max_per_author then
      r :: ensure_author_diversity_aux max_per_author
        (bumpAuthor counts (primary_author r.authors)) rs
    else ensure_author_diversity_aux max_per_author counts rs

/-- Embedding of `ensure_author_diversity(recommendations, max_per_author)`
(lines 197-213 of recommendation_diverse.py). -/
def ensure_author_diversity (recommendations : List DivRec) (max_per_author : ℕ) :
    List DivRec :=
  ensure_author_diversity_aux max_per_author [] recommendations

theorem authorCount_bumpAuthor (a b : String) :
    ∀ counts : List (String × ℕ),
      authorCount (bumpAuthor counts a) b =
        if a = b then authorCount counts b + 1 else authorCount counts b := by
  intro counts
  induction counts with
  | nil =>
      by_cases hab : a = b
      · simp [bumpAuthor, authorCount, hab]
      · simp [bumpAuthor, authorCount, hab]
  | cons p rest ih =>
      obtain ⟨c, n⟩ := p
      by_cases hca : c = a
      · subst hca
        by_cases hab : c = b
        · simp [bumpAuthor, authorCount, hab]
        · simp [bumpAuthor, authorCount, hab]
      · by_cases hcb : c = b
        · subst hcb
          have hab : ¬ a = c := fun h => hca h.symm
          simp [bumpAuthor, hca, authorCount, hab]
        · simp [bumpAuthor, hca, authorCount, hcb, ih]

theorem countP_ensure_author_diversity_aux (max_per_author : ℕ) (a : String) :
    ∀ (recs : List DivRec) (counts : List (String × ℕ)),
      (ensure_author_diversity_aux max_per_author counts recs).countP
          (fun r => decide (primary_author r.authors = a)) =
        min (recs.countP (fun r => decide (primary_author r.authors = a)))
          (max_per_author - authorCount counts a) := by
  intro recs
  induction recs with
  | nil => intro counts; simp [ensure_author_diversity_aux]
  | cons r rs ih =>
      intro counts
      by_cases hkeep : authorCount counts (primary_author r.authors) < max_per_author
      · rw [ensure_author_diversity_aux, if_pos hkeep]
        rw [List.countP_cons, List.countP_cons, ih]
        rw [authorCount_bumpAuthor]
        by_cases hpa : primary_author r.authors = a
        · rw [hpa] at hkeep
          simp [hpa]
          omega
        · simp [hpa]
      · rw [ensure_author_diversity_aux, if_neg hkeep]
        rw [List.countP_cons, ih]
        by_cases hpa : primary_author r.authors = a
        · rw [hpa] at hkeep
          simp [hpa]
          omega
        · simp [hpa]

theorem ensure_author_diversity_aux_sublist (max_per_author : ℕ) :
    ∀ (recs : List DivRec) (counts : List (String × ℕ)),
      (ensure_author_diversity_aux max_per_author counts recs).Sublist recs := by
  intro recs
  induction recs with
  | nil => intro counts; simp [ensure_author_diversity_aux]
  | cons r rs ih =>
      intro counts
      by_cases hkeep : authorCount counts (primary_author r.authors) < max_per_author
      · rw [ensure_author_diversity_aux, if_pos hkeep]
        exact List.Sublist.cons₂ r (ih _)
      · rw [ensure_author_diversity_aux, if_neg hkeep]
        exact List.Sublist.cons r (ih _)

/-- C5: with author cap 2, the diversity pass returns a list with at most 2
entries per primary author — exactly the first `min(input count, 2)` entries
of each primary author, in input (score) order — and the retained entries form
a sublist of the input (a single pass that skips over-quota items and
preserves relative order). -/
theorem ensure_author_diversity_cap (recs : List DivRec) :
    (∀ a : String,
      (ensure_author_diversity recs 2).countP
          (fun r => decide (primary_author r.authors = a)) ≤ 2) ∧
    (∀ a : String,
      (ensure_author_diversity recs 2).countP
          (fun r => decide (primary_author r.authors = a)) =
        min (recs.countP (fun r => decide (primary_author r.authors = a))) 2) ∧
    (ensure_author_diversity recs 2).Sublist recs := by
  have hcount := fun a => countP_ensure_author_diversity_aux 2 a recs []
  have hc0 : ∀ a : String, authorCount [] a = 0 := fun a => rfl
  refine ⟨?_, ?_, ensure_author_diversity_aux_sublist 2 recs []⟩
  · intro a
    rw [ensure_author_diversity, hcount a, hc0 a]
    omega
  · intro a
    rw [ensure_author_diversity, hcount a, hc0 a]

/-! ## Latent-factor model (src/bookrec/models/collaborative.py, CFRecommender)

A fitted model is the data `fit` leaves on the object: the user and item
index maps and the two factor matrices. Scores are latent dot products. -/

/-- The state of a fitted `CFRecommender`: `user_index`, `item_index`,
`user_factors` and `item_factors` (rows of the factor matrices). -/
structure CFModel where
  user_index : List (Int × ℕ)
  item_index : List (String × ℕ)
  user_factors : List (List ℚ)
  item_factors : List (List ℚ)

/-- Dot product of two factor rows (`user_factors[uidx] @ item_factors[iidx]`). -/
def dotProduct (a b : List ℚ) : ℚ :=
  (List.zipWith (fun x y => x * y) a b).sum

/-- Embedding of `CFRecommender._score` (line 56-58). -/
def cf_score (m : CFModel) (uidx iidx : ℕ) : ℚ :=
  dotProduct (m.user_factors.getD uidx []) (m.item_factors.getD iidx [])

/-- Embedding of `CFRecommender.predict_for_user` (lines 60-78): empty for a
user missing from `user_index`; otherwise score the candidates found in
`item_index` (unknown candidates are skipped) and sort descending by score. -/
def predict_for_user (m : CFModel) (user_id : Int) (candidate_isbns : List String) :
    List (String × ℚ) :=
  match m.user_index.lookup user_id with
  | none => []
  | some uidx =>
      sortByDesc Prod.snd (candidate_isbns.filterMap (fun isbn =>
        (m.item_index.lookup isbn).map (fun iidx => (isbn, cf_score m uidx iidx))))

/-- Accumulator-based first-occurrence deduplication: keep an element unless
it was already seen. -/
def dedupFirstAux (seen : List String) : List String → List String
  | [] => []
  | x :: xs =>
      if seen.contains x then dedupFirstAux seen xs
      else x :: dedupFirstAux (x :: seen) xs

/-- First-occurrence deduplication; models building a Python `set` from a
list (the set's iteration order is arbitrary in Python; it is fixed here to
first-occurrence order). -/
def dedupFirst (l : List String) : List String :=
  dedupFirstAux [] l

/-- Embedding of `CFRecommender.recommend` (lines 80-93): remove the rows of
`exclude_seen` belonging to `user_id` from the candidate set, predict and
truncate to `k`. -/
def cf_recommend (m : CFModel) (user_id : Int) (all_items : List String) (k : ℕ)
    (exclude_seen : List (Int × String)) : List (String × ℚ) :=
  let seen := (exclude_seen.filter (fun p => p.1 == user_id)).map Prod.snd
  let candidates := (dedupFirst all_items).filter (fun i => !(seen.contains i))
  (predict_for_user m user_id candidates).take k

theorem pairwise_predict_for_user (m : CFModel) (user_id : Int)
    (candidate_isbns : List String) :
    (predict_for_user m user_id candidate_isbns).Pairwise (fun a b => b.2 ≤ a.2) := by
  unfold predict_for_user
  cases h : m.user_index.lookup user_id with
  | none => simp
  | some uidx => exact pairwise_sortByDesc _ _

/-- C8: `recommend` returns at most `k` (item, score) pairs, sorted in
descending score order, and returns the empty list for a user id absent from
the fitted user index. -/
theorem cf_recommend_spec (m : CFModel) (user_id : Int) (all_items : List String)
    (k : ℕ) (exclude_seen : List (Int × String)) :
    (cf_recommend m user_id all_items k exclude_seen).length ≤ k ∧
    (cf_recommend m user_id all_items k exclude_seen).Pairwise (fun a b => b.2 ≤ a.2) ∧
    (m.user_index.lookup user_id = none →
      cf_recommend m user_id all_items k exclude_seen = []) := by
  refine ⟨?_, ?_, ?_⟩
  · exact List.length_take_le k _
  · exact List.Pairwise.sublist (List.take_sublist _ _) (pairwise_predict_for_user _ _ _)
  · intro h
    simp [cf_recommend, predict_for_user, h]

/-- A tiny fitted model used to instantiate `cf_recommend_spec`. -/
def cfModelEx : CFModel :=
  { user_index := [(1, 0)], item_index := [("A", 0)],
    user_factors := [[1]], item_factors := [[1]] }

/-- Witness for `cf_recommend_spec`: user 2 is absent from the fitted user
index of `cfModelEx`, so `recommend` returns the empty list. -/
theorem cf_recommend_spec_witness : cf_recommend cfModelEx 2 ["A"] 3 [] = [] :=
  (cf_recommend_spec cfModelEx 2 ["A"] 3 []).2.2 (by rfl)

theorem length_filterMap_option_map {α β γ : Type} (f : α → Option β) (g : α → β → γ)
    (l : List α) :
    (l.filterMap (fun a => (f a).map (g a))).length =
      (l.filter (fun a => (f a).isSome)).length := by
  induction l with
  | nil => rfl
  | cons x xs ih =>
      cases h : f x <;> simp [List.filterMap_cons, List.filter_cons, h, ih]

/-- C10: `predict_for_user` scores only candidate ISBNs present in the fitted
item index — every returned pair's ISBN has an item-index entry, unknown
candidates are silently dropped (no error, no zero-score entry), and the
result length equals the number of known candidates (so never exceeds it). -/
theorem predict_for_user_known_only (m : CFModel) (user_id : Int)
    (candidate_isbns : List String) :
    ((predict_for_user m user_id candidate_isbns).map Prod.fst).all
        (fun i => (m.item_index.lookup i).isSome) = true ∧
    (predict_for_user m user_id candidate_isbns).length ≤
      (candidate_isbns.filter (fun i => (m.item_index.lookup i).isSome)).length := by
  constructor
  · rw [List.all_eq_true]
    intro i hi
    rcases List.mem_map.mp hi with ⟨p, hp, hfst⟩
    unfold predict_for_user at hp
    cases h : m.user_index.lookup user_id with
    | none => rw [h] at hp; simp at hp
    | some uidx =>
        rw [h] at hp
        rw [mem_sortByDesc] at hp
        rcases List.mem_filterMap.mp hp with ⟨isbn, _, hsome⟩
        cases hlook : m.item_index.lookup isbn with
        | none => rw [hlook] at hsome; simp at hsome
        | some iidx =>
            rw [hlook] at hsome
            simp only [Option.map_some'] at hsome
            have hpeq : (isbn, cf_score m uidx iidx) = p := Option.some.inj hsome
            have : p.1 = isbn := by rw [← hpeq]
            rw [hfst] at this
            rw [this, hlook]
            rfl
  · unfold predict_for_user
    cases h : m.user_index.lookup user_id with
    | none => simp
    | some uidx =>
        rw [length_sortByDesc, length_filterMap_option_map]

/-! ## Offline evaluator (src/bookrec/evaluation/metrics.py, ndcg_at_k)

`ndcg_at_k` computes binary-relevance DCG with discount `1/log2(rank+1)`
over the top-k, normalizes by the DCG of the top-k re-sorted with relevant
items first (Python's stable `sorted(..., key=lambda x: x in relevant,
reverse=True)`), and returns 0.0 when the ideal DCG is zero. -/

/-- The DCG sum of `items` starting at rank `i` (ranks are 1-based,
`enumerate(items, start=1)`): each item contributes
`(1 if relevant else 0) / log2(rank + 1)`. -/
noncomputable def dcgFrom (relevant : List String) : ℕ → List String → ℝ
  | _, [] => 0
  | i, x :: xs =>
      (if x ∈ relevant then (1 : ℝ) else 0) / Real.logb 2 (i + 1) +
        dcgFrom relevant (i + 1) xs

/-- Embedding of the inner `dcg` of `ndcg_at_k` (lines 35-36 of metrics.py). -/
noncomputable def dcg (relevant items : List String) : ℝ :=
  dcgFrom relevant 1 items

/-- The `ideal` ranking of line 38: Python's stable boolean-key descending
sort puts the relevant items of the top-k first, each block in original
order. -/
def ideal_ranking (relevant topk : List String) : List String :=
  topk.filter (fun x => decide (x ∈ relevant)) ++
    topk.filter (fun x => !(decide (x ∈ relevant)))

/-- Embedding of `ndcg_at_k(recommended, relevant, k)` (lines 32-42 of
metrics.py). -/
noncomputable def ndcg_at_k (recommended relevant : List String) (k : ℕ) : ℝ :=
  let topk := recommended.take k
  let idcg := dcg relevant (ideal_ranking relevant topk)
  if idcg = 0 then 0 else dcg relevant topk / idcg

theorem dcgFrom_eq_zero (relevant : List String) :
    ∀ (xs : List String), (∀ x ∈ xs, x ∉ relevant) → ∀ i, dcgFrom relevant i xs = 0 := by
  intro xs
  induction xs with
  | nil => intro _ i; rfl
  | cons y ys ih =>
      intro h i
      have hy : y ∉ relevant := h y (List.mem_cons_self y ys)
      rw [dcgFrom, if_neg hy, ih (fun x hx => h x (List.mem_cons_of_mem y hx))]
      simp

theorem logb_two_pos_of_rank (i : ℕ) (hi : 1 ≤ i) : 0 < Real.logb 2 (i + 1) := by
  apply Real.logb_pos (by norm_num)
  have : (1 : ℝ) ≤ (i : ℝ) := by exact_mod_cast hi
  linarith

theorem dcgFrom_nonneg (relevant : List String) :
    ∀ (xs : List String) (i : ℕ), 1 ≤ i → 0 ≤ dcgFrom relevant i xs := by
  intro xs
  induction xs with
  | nil => intro i _; simp [dcgFrom]
  | cons y ys ih =>
      intro i hi
      rw [dcgFrom]
      have hterm : 0 ≤ (if y ∈ relevant then (1 : ℝ) else 0) / Real.logb 2 (i + 1) := by
        apply div_nonneg
        · split <;> norm_num
        · exact le_of_lt (logb_two_pos_of_rank i hi)
      have hrest : 0 ≤ dcgFrom relevant (i + 1) ys := ih (i + 1) (by omega)
      linarith

theorem dcgFrom_pos (relevant : List String) :
    ∀ (xs : List String), (∃ x ∈ xs, x ∈ relevant) →
      ∀ i, 1 ≤ i → 0 < dcgFrom relevant i xs := by
  intro xs
  induction xs with
  | nil => intro h; rcases h with ⟨x, hx, _⟩; exact absurd hx (List.not_mem_nil x)
  | cons y ys ih =>
      intro h i hi
      rw [dcgFrom]
      by_cases hy : y ∈ relevant
      · have hterm : 0 < (if y ∈ relevant then (1 : ℝ) else 0) / Real.logb 2 (i + 1) := by
          rw [if_pos hy]
          exact div_pos one_pos (logb_two_pos_of_rank i hi)
        have hrest : 0 ≤ dcgFrom relevant (i + 1) ys := dcgFrom_nonneg relevant ys (i + 1) (by omega)
        linarith
      · rcases h with ⟨x, hx, hxrel⟩
        rcases List.mem_cons.mp hx with rfl | hx'
        · exact absurd hxrel hy
        · have hrest : 0 < dcgFrom relevant (i + 1) ys := ih ⟨x, hx', hxrel⟩ (i + 1) (by omega)
          have hterm : 0 ≤ (if y ∈ relevant then (1 : ℝ) else 0) / Real.logb 2 (i + 1) := by
            rw [if_neg hy]
            simp
          linarith

/-- C7: for a non-empty relevant set, if the top-k places all relevant items
before all non-relevant ones (and contains every relevant item), NDCG@k
equals 1.0; and if the top-k contains no relevant item, NDCG@k equals 0.0. -/
theorem ndcg_extremes (recommended relevant : List String) (k : ℕ)
    (hne : relevant ≠ []) :
    ((∀ r ∈ relevant, r ∈ recommended.take k) →
      (∃ A B, recommended.take k = A ++ B ∧ (∀ a ∈ A, a ∈ relevant) ∧
        (∀ b ∈ B, b ∉ relevant)) →
      ndcg_at_k recommended relevant k = 1) ∧
    ((∀ x ∈ recommended.take k, x ∉ relevant) → ndcg_at_k recommended relevant k = 0) := by
  constructor
  · intro hsub hsplit
    rcases hsplit with ⟨A, B, htop, hA, hB⟩
    have hfilA : A.filter (fun x => decide (x ∈ relevant)) = A :=
      List.filter_eq_self.mpr (fun a ha => by simpa using hA a ha)
    have hfilB : B.filter (fun x => decide (x ∈ relevant)) = [] := by
      apply List.filter_eq_nil_iff.mpr
      intro b hb
      simpa using hB b hb
    have hfilA' : A.filter (fun x => !(decide (x ∈ relevant))) = [] := by
      apply List.filter_eq_nil_iff.mpr
      intro a ha
      simpa using hA a ha
    have hfilB' : B.filter (fun x => !(decide (x ∈ relevant))) = B :=
      List.filter_eq_self.mpr (fun b hb => by simpa using hB b hb)
    have hideal : ideal_ranking relevant (recommended.take k) = recommended.take k := by
      rw [ideal_ranking, htop, List.filter_append, List.filter_append,
        hfilA, hfilB, hfilA', hfilB']
      simp
    obtain ⟨r, hr⟩ : ∃ r, r ∈ relevant := List.exists_mem_of_ne_nil relevant hne
    have hrtop : r ∈ recommended.take k := hsub r hr
    have hpos : 0 < dcg relevant (recommended.take k) :=
      dcgFrom_pos relevant _ ⟨r, hrtop, hr⟩ 1 le_rfl
    rw [ndcg_at_k]
    simp only [hideal]
    rw [if_neg (ne_of_gt hpos)]
    exact div_self (ne_of_gt hpos)
  · intro hnone
    have hfil : (recommended.take k).filter (fun x => decide (x ∈ relevant)) = [] := by
      apply List.filter_eq_nil_iff.mpr
      intro x hx
      simpa using hnone x hx
    have hfil' : (recommended.take k).filter (fun x => !(decide (x ∈ relevant))) =
        recommended.take k :=
      List.filter_eq_self.mpr (fun x hx => by simpa using hnone x hx)
    have hideal : ideal_ranking relevant (recommended.take k) = recommended.take k := by
      rw [ideal_ranking, hfil, hfil']
      simp
    have hzero : dcg relevant (recommended.take k) = 0 :=
      dcgFrom_eq_zero relevant _ hnone 1
    rw [ndcg_at_k]
    simp only [hideal]
    rw [if_pos hzero]

/-- Witness for `ndcg_extremes`: the list `["a", "b"]` with relevant set
`{"a"}` and k = 2 is relevance-sorted, and its NDCG@2 is 1. -/
theorem ndcg_extremes_witness :
    (["a"] ≠ ([] : List String)) ∧ ndcg_at_k ["a", "b"] ["a"] 2 = 1 :=
  ⟨by decide,
    (ndcg_extremes ["a", "b"] ["a"] 2 (by decide)).1 (by decide)
      ⟨["a"], ["b"], by decide, by decide, by decide⟩⟩

/-! ## Hybrid Combiner (scripts/recommendations/recommendation_hybrid.py)

`get_hybrid_recommendations` gathers candidate ISBNs (genre query plus the
liked books of the top similar users), removes the target user's rated books,
scores each candidate with the three component scorers and a weighted sum,
and returns the list sorted descending by total score, truncated to `limit`.
Database query results appear as fields of a `HybridSnapshot`. -/

/-- Lower-cased character list of a string (`s.lower()`). -/
def lowerChars (s : String) : List Char :=
  s.toList.map Char.toLower

/-- Whether `needle` is a leading segment of `hay`. -/
def matchesAt : List Char → List Char → Bool
  | [], _ => true
  | _ :: _, [] => false
  | a :: as, b :: bs => a == b && matchesAt as bs

/-- Whether `needle` occurs contiguously inside `hay`. -/
def hasSubList (needle : List Char) : List Char → Bool
  | [] => matchesAt needle []
  | b :: bs => matchesAt needle (b :: bs) || hasSubList needle bs

/-- Models Python's case-insensitive containment test
`needle.lower() in hay.lower()` (line 106 of recommendation_hybrid.py). -/
def str_contains_lower (hay needle : String) : Bool :=
  hasSubList (lowerChars needle) (lowerChars hay)

/-- The `rating_metrics` subdocument of a book's MongoDB metadata (only the
fields the hybrid scorer reads). -/
structure RatingMetrics where
  rating_score : ℚ
  r_count : ℕ

/-- A book's MongoDB metadata document as read by the hybrid scorer:
optional fields model dictionary keys that may be absent. -/
structure BookMeta where
  genres : Option (List String)
  authors : String
  price : Option ℚ
  rating_metrics : Option RatingMetrics

/-- The user preferences subdocument (`users_profiles.preferences`). -/
structure UserPrefs where
  top_authors : Option (List String)
  avg_price : Option ℚ

/-- Embedding of `content_based_score(book_meta, user_prefs, user_genres)`
(lines 85-121): genre-intersection bonus of 10 per distinct matching genre,
8 for the first of the top-3 favorite authors contained in the author string,
3 for a nonzero book price within 5 of the user's average price; returns the
score and the fired reason strings. -/
def content_based_score (book_meta : Option BookMeta) (user_prefs : Option UserPrefs)
    (user_genres : List String) : ℚ × List String :=
  match book_meta with
  | none => (0, [])
  | some meta =>
      let genrePart : ℚ × List String :=
        match meta.genres with
        | some book_genres =>
            if user_genres.isEmpty then (0, [])
            else
              let genre_matches :=
                (user_genres.dedup.filter (fun g => book_genres.contains g)).length
              if 0 < genre_matches then
                ((genre_matches * 10 : ℕ),
                  ["genre match (+" ++ toString (genre_matches * 10) ++ ")"])
              else (0, [])
        | none => (0, [])
      let authorPart : ℚ × List String :=
        match user_prefs with
        | some prefs =>
            match prefs.top_authors with
            | some top_authors =>
                match (top_authors.take 3).find?
                    (fun fav => str_contains_lower meta.authors fav) with
                | some fav => (8, ["favorite author: " ++ fav])
                | none => (0, [])
            | none => (0, [])
        | none => (0, [])
      let pricePart : ℚ × List String :=
        match user_prefs with
        | some prefs =>
            match prefs.avg_price, meta.price with
            | some user_price, some book_price =>
                if book_price ≠ 0 ∧ |book_price - user_price| ≤ 5 then (3, ["price match"])
                else (0, [])
            | _, _ => (0, [])
        | none => (0, [])
      (genrePart.1 + authorPart.1 + pricePart.1,
        genrePart.2 ++ authorPart.2 ++ pricePart.2)

/-- A similar user discovered by `find_similar_users_simple`, together with
that user's rows of the ratings table (the per-ISBN SQL point query of
`collaborative_score` is a lookup in those rows). -/
structure SimUser where
  user_id : Int
  correlation : ℝ
  ratings : List (String × ℚ)

/-- Embedding of `collaborative_score(isbn, similar_users)` (lines 124-147):
sum `rating * similarity` over similar users who rated the book at least 7,
collecting the raters. -/
noncomputable def collaborative_score (isbn : String) (similar_users : List SimUser) :
    ℝ × List (Int × ℚ) :=
  similar_users.foldl
    (fun acc su =>
      match su.ratings.lookup isbn with
      | some rating =>
          if 7 ≤ rating then
            (acc.1 + (rating : ℝ) * su.correlation, acc.2 ++ [(su.user_id, rating)])
          else acc
      | none => acc)
    (0, [])

/-- Embedding of `popularity_score(book_meta)` (lines 150-164): Bayesian
rating score plus `log(max(r_count, 1)) * 0.5`; 0 when the metadata or its
`rating_metrics` is missing. -/
noncomputable def popularity_score (book_meta : Option BookMeta) : ℝ :=
  match book_meta with
  | none => 0
  | some meta =>
      match meta.rating_metrics with
      | none => 0
      | some rm => (rm.rating_score : ℝ) + Real.log ((max rm.r_count 1 : ℕ) : ℝ) * (1 / 2)

/-- One scored candidate of the hybrid recommender (the dict built at
lines 277-286). -/
structure ScoredBook where
  isbn : String
  total_score : ℝ
  content_score : ℚ
  collab_score : ℝ
  pop_score : ℝ
  content_reasons : List String
  collab_raters : ℕ
  metadata : BookMeta

/-- A snapshot of every repository read `get_hybrid_recommendations`
performs: the user's preference document, favorite genres, rating rows, the
similar users found for them, the genre candidate SQL query result and the
MongoDB book metadata collection. -/
structure HybridSnapshot where
  user_prefs : Option UserPrefs
  user_genres : List String
  user_ratings : List (String × ℚ)
  similar_users : List SimUser
  genre_candidates : List String
  books_metadata : List (String × BookMeta)

/-- Candidate assembly of `get_hybrid_recommendations` (lines 232-257): the
genre query result (only when the user has favorite genres) united with the
books rated at least 7 by the top-10 similar users, minus the user's already
rated ISBNs.  The Python `set` is modelled with first-occurrence order. -/
def hybrid_candidates (s : HybridSnapshot) : List String :=
  let rated_isbns := s.user_ratings.map Prod.fst
  let genre_cands := if s.user_genres.isEmpty then [] else s.genre_candidates
  let sim_cands := (s.similar_users.take 10).flatMap
    (fun su => (su.ratings.filter (fun p => decide (7 ≤ p.2))).map Prod.fst)
  (dedupFirst (genre_cands ++ sim_cands)).filter (fun i => !(rated_isbns.contains i))

/-- Scoring of one candidate (lines 262-286): skip ISBNs with no metadata
document, otherwise compute the three component scores and the weighted
total. -/
noncomputable def hybrid_score_book (s : HybridSnapshot)
    (content_weight collab_weight popularity_weight : ℝ) (isbn : String) :
    Option ScoredBook :=
  match s.books_metadata.lookup isbn with
  | none => none
  | some meta =>
      let content := content_based_score (some meta) s.user_prefs s.user_genres
      let collab := collaborative_score isbn s.similar_users
      let pop_sc := popularity_score (some meta)
      some
        { isbn := isbn
          total_score := (content.1 : ℝ) * content_weight +
            collab.1 * collab_weight + pop_sc * popularity_weight
          content_score := content.1
          collab_score := collab.1
          pop_score := pop_sc
          content_reasons := content.2
          collab_raters := collab.2.length
          metadata := meta }

/-- The `scored_books` list (lines 260-286): the first 1000 candidates,
scored, metadata-less ones skipped. -/
noncomputable def hybrid_scored (s : HybridSnapshot)
    (content_weight collab_weight popularity_weight : ℝ) : List ScoredBook :=
  ((hybrid_candidates s).take 1000).filterMap
    (hybrid_score_book s content_weight collab_weight popularity_weight)

/-- Embedding of `get_hybrid_recommendations` (lines 219-290): scored
candidates sorted descending by total score (Python's stable sort), truncated
to `limit`. -/
noncomputable def get_hybrid_recommendations (s : HybridSnapshot) (limit : ℕ)
    (content_weight collab_weight popularity_weight : ℝ) : List ScoredBook :=
  (sortByDesc ScoredBook.total_score
    (hybrid_scored s content_weight collab_weight popularity_weight)).take limit

/-- C2: for every repository snapshot, limit and weight configuration, no
ISBN the user has already rated appears in the hybrid recommendation list
(rated books are removed from the candidate set at line 257 before scoring). -/
theorem hybrid_excludes_rated (s : HybridSnapshot) (limit : ℕ)
    (content_weight collab_weight popularity_weight : ℝ) :
    ((get_hybrid_recommendations s limit content_weight collab_weight
        popularity_weight).map ScoredBook.isbn).all
      (fun i => !((s.user_ratings.map Prod.fst).contains i)) = true := by
  rw [List.all_eq_true]
  intro i hi
  rcases List.mem_map.mp hi with ⟨b, hb, hfst⟩
  have hb1 : b ∈ sortByDesc ScoredBook.total_score
      (hybrid_scored s content_weight collab_weight popularity_weight) :=
    List.mem_of_mem_take hb
  have hb2 : b ∈ hybrid_scored s content_weight collab_weight popularity_weight :=
    (mem_sortByDesc _ _ _).mp hb1
  rcases List.mem_filterMap.mp hb2 with ⟨isbn, hisbn, hsome⟩
  have hbisbn : b.isbn = isbn := by
    unfold hybrid_score_book at hsome
    cases hlook : s.books_metadata.lookup isbn with
    | none => rw [hlook] at hsome; simp at hsome
    | some meta =>
        rw [hlook] at hsome
        simp only at hsome
        have := Option.some.inj hsome
        rw [← this]
  have hmem : isbn ∈ hybrid_candidates s := List.mem_of_mem_take hisbn
  unfold hybrid_candidates at hmem
  rcases List.mem_filter.mp hmem with ⟨_, hnot⟩
  rw [← hfst, hbisbn]
  exact hnot

/-- Metadata with no genre, author, price or rating-metric signal: every
component scorer yields 0 for it. -/
def bookMetaEx : BookMeta :=
  { genres := some [], authors := "", price := none, rating_metrics := none }

/-- A snapshot whose genre query returns the candidates in the order
`["B", "A"]`, with identical signal-free metadata for both books: both
candidates receive the same combined score. -/
def hybridSnapshotEx : HybridSnapshot :=
  { user_prefs := none, user_genres := ["g"], user_ratings := [],
    similar_users := [], genre_candidates := ["B", "A"],
    books_metadata := [("A", bookMetaEx), ("B", bookMetaEx)] }

theorem hybrid_scored_ex :
    hybrid_scored hybridSnapshotEx 1 0 0 =
      [{ isbn := "B", total_score := 0, content_score := 0, collab_score := 0,
         pop_score := 0, content_reasons := [], collab_raters := 0,
         metadata := bookMetaEx },
       { isbn := "A", total_score := 0, content_score := 0, collab_score := 0,
         pop_score := 0, content_reasons := [], collab_raters := 0,
         metadata := bookMetaEx }] := by
  have hcand : hybrid_candidates hybridSnapshotEx = ["B", "A"] := by rfl
  rw [hybrid_scored, hcand]
  have hB : hybrid_score_book hybridSnapshotEx 1 0 0 "B" =
      some { isbn := "B", total_score := 0, content_score := 0, collab_score := 0,
             pop_score := 0, content_reasons := [], collab_raters := 0,
             metadata := bookMetaEx } := by
    have hlook : hybridSnapshotEx.books_metadata.lookup "B" = some bookMetaEx := by rfl
    rw [hybrid_score_book, hlook]
    have hcont : content_based_score (some bookMetaEx) hybridSnapshotEx.user_prefs
        hybridSnapshotEx.user_genres = (0, []) := by
      simp [content_based_score, hybridSnapshotEx, bookMetaEx]
    have hcollab : collaborative_score "B" hybridSnapshotEx.similar_users = (0, []) := by
      rfl
    have hpop : popularity_score (some bookMetaEx) = 0 := by rfl
    dsimp only
    rw [hcont, hcollab, hpop]
    simp
  have hA : hybrid_score_book hybridSnapshotEx 1 0 0 "A" =
      some { isbn := "A", total_score := 0, content_score := 0, collab_score := 0,
             pop_score := 0, content_reasons := [], collab_raters := 0,
             metadata := bookMetaEx } := by
    have hlook : hybridSnapshotEx.books_metadata.lookup "A" = some bookMetaEx := by rfl
    rw [hybrid_score_book, hlook]
    have hcont : content_based_score (some bookMetaEx) hybridSnapshotEx.user_prefs
        hybridSnapshotEx.user_genres = (0, []) := by
      simp [content_based_score, hybridSnapshotEx, bookMetaEx]
    have hcollab : collaborative_score "A" hybridSnapshotEx.similar_users = (0, []) := by
      rfl
    have hpop : popularity_score (some bookMetaEx) = 0 := by rfl
    dsimp only
    rw [hcont, hcollab, hpop]
    simp
  rw [show (["B", "A"].take 1000) = ["B", "A"] by rfl]
  rw [List.filterMap_cons, hB, List.filterMap_cons, hA, List.filterMap_nil]

/-- C4 counterexample: on `hybridSnapshotEx` with weights (1, 0, 0) both
candidates get combined score 0, yet the output order is `["B", "A"]` — the
order the candidates were enumerated in — although ascending item-identifier
order would be `["A", "B"]`: equal-score candidates are NOT ordered by item
identifier ascending. -/
theorem hybrid_tie_not_by_isbn :
    ((get_hybrid_recommendations hybridSnapshotEx 10 1 0 0).map ScoredBook.isbn =
      ["B", "A"]) ∧
    ((get_hybrid_recommendations hybridSnapshotEx 10 1 0 0).map ScoredBook.total_score =
      [0, 0]) ∧
    "A" < "B" := by
  have hout : get_hybrid_recommendations hybridSnapshotEx 10 1 0 0 =
      [{ isbn := "B", total_score := 0, content_score := 0, collab_score := 0,
         pop_score := 0, content_reasons := [], collab_raters := 0,
         metadata := bookMetaEx },
       { isbn := "A", total_score := 0, content_score := 0, collab_score := 0,
         pop_score := 0, content_reasons := [], collab_raters := 0,
         metadata := bookMetaEx }] := by
    rw [get_hybrid_recommendations, hybrid_scored_ex]
    simp [sortByDesc, insertScoredDesc]
  refine ⟨?_, ?_, ?_⟩
  · rw [hout]; rfl
  · rw [hout]; rfl
  · rw [String.lt_iff_toList_lt]
    decide

/-- C4 (amended): for a fixed repository snapshot and fixed weights the
hybrid computation is deterministic (two calls yield the same list), the
output is sorted descending by combined score, and candidates of equal
combined score keep the order in which they were scored (stability of the
sort) — they are not reordered by item identifier. -/
theorem hybrid_deterministic_sorted (s : HybridSnapshot) (limit : ℕ)
    (content_weight collab_weight popularity_weight : ℝ) :
    get_hybrid_recommendations s limit content_weight collab_weight popularity_weight =
      get_hybrid_recommendations s limit content_weight collab_weight popularity_weight ∧
    (get_hybrid_recommendations s limit content_weight collab_weight
        popularity_weight).Pairwise (fun a b => b.total_score ≤ a.total_score) ∧
    (∀ v : ℝ,
      (sortByDesc ScoredBook.total_score
          (hybrid_scored s content_weight collab_weight popularity_weight)).filter
          (fun b => decide (b.total_score = v)) =
        (hybrid_scored s content_weight collab_weight popularity_weight).filter
          (fun b => decide (b.total_score = v))) :=
  ⟨rfl,
    List.Pairwise.sublist (List.take_sublist _ _) (pairwise_sortByDesc _ _),
    fun v => filter_sortByDesc _ _ v⟩

/-! ## Neighbor Similarity Finder (scripts/recommendations/recommendation_collaborative.py)

`find_similar_users` computes a Pearson correlation over the commonly rated
books of the target user and each candidate, skipping candidates with too few
common books or with zero variance in either mean-centered vector
(lines 109-110), keeping the positively correlated ones. -/

/-- The commonly rated ISBNs of target and candidate
(`target_books.intersection(set(candidate_ratings.keys()))`, modelled in
first-occurrence order; intersection order does not affect the sums). -/
def commonBooks (target cand : List (String × ℚ)) : List String :=
  (dedupFirst (target.map Prod.fst)).filter (fun i => (cand.lookup i).isSome)

/-- Mean-center a rating vector (lines 98-102). -/
def centeredVals (vals : List ℚ) : List ℚ :=
  vals.map (fun r => r - vals.sum / vals.length)

/-- The target user's ratings over the common books (line 94). -/
def pearsonTargetVals (target cand : List (String × ℚ)) : List ℚ :=
  (commonBooks target cand).map (fun i => (target.lookup i).getD 0)

/-- The candidate's ratings over the common books (line 95). -/
def pearsonCandVals (target cand : List (String × ℚ)) : List ℚ :=
  (commonBooks target cand).map (fun i => (cand.lookup i).getD 0)

/-- `numerator = sum(t * c ...)` of line 105. -/
def pearsonNum (target cand : List (String × ℚ)) : ℚ :=
  dotProduct (centeredVals (pearsonTargetVals target cand))
    (centeredVals (pearsonCandVals target cand))

/-- `target_sq = sum(t * t ...)` of line 106. -/
def pearsonTargetSq (target cand : List (String × ℚ)) : ℚ :=
  dotProduct (centeredVals (pearsonTargetVals target cand))
    (centeredVals (pearsonTargetVals target cand))

/-- `candidate_sq = sum(c * c ...)` of line 107. -/
def pearsonCandSq (target cand : List (String × ℚ)) : ℚ :=
  dotProduct (centeredVals (pearsonCandVals target cand))
    (centeredVals (pearsonCandVals target cand))

/-- `denominator = sqrt(target_sq * candidate_sq)` of line 112. -/
noncomputable def pearsonDenominator (target cand : List (String × ℚ)) : ℝ :=
  Real.sqrt ((pearsonTargetSq target cand : ℝ) * (pearsonCandSq target cand : ℝ))

/-- `correlation = numerator / denominator if denominator > 0 else 0`
(line 113). -/
noncomputable def pearsonCorrelation (target cand : List (String × ℚ)) : ℝ :=
  if 0 < pearsonDenominator target cand then
    (pearsonNum target cand : ℝ) / pearsonDenominator target cand
  else 0

/-- An entry of the similar-user result list (lines 116-120). -/
structure SimilarEntry where
  user_id : Int
  correlation : ℝ
  common_books : ℕ

/-- The per-candidate body of the loop of `find_similar_users`
(lines 84-120): skip candidates with fewer common books than the threshold,
with zero variance in either centered vector, or with correlation at most
0.3; otherwise produce the similar-user entry. -/
noncomputable def pearsonStep (target : List (String × ℚ)) (min_common_books : ℕ)
    (cand : Int × List (String × ℚ)) : Option SimilarEntry :=
  if (commonBooks target cand.2).length < min_common_books then none
  else if pearsonTargetSq target cand.2 = 0 ∨ pearsonCandSq target cand.2 = 0 then none
  else if (0.3 : ℝ) < pearsonCorrelation target cand.2 then
    some ⟨cand.1, pearsonCorrelation target cand.2, (commonBooks target cand.2).length⟩
  else none

/-- Embedding of `find_similar_users(target_user_id, min_common_books, limit)`
(lines 59-124): empty when the target has no ratings, otherwise the entries
produced from the first 500 candidates, sorted descending by correlation and
truncated to `limit`.  `candidate_users` carries each candidate's rating rows
(the SQL results). -/
noncomputable def find_similar_users (target : List (String × ℚ))
    (candidate_users : List (Int × List (String × ℚ)))
    (min_common_books limit : ℕ) : List SimilarEntry :=
  if target.isEmpty then []
  else
    (sortByDesc SimilarEntry.correlation
      ((candidate_users.take 500).filterMap (pearsonStep target min_common_books))).take
      limit

theorem dotProduct_self_nonneg (a : List ℚ) : 0 ≤ dotProduct a a := by
  induction a with
  | nil => simp [dotProduct]
  | cons x xs ih =>
      rw [dotProduct] at ih ⊢
      rw [List.zipWith_cons_cons, List.sum_cons]
      have := mul_self_nonneg x
      linarith

theorem pearsonStep_some (target : List (String × ℚ)) (min_common_books : ℕ)
    (cand : Int × List (String × ℚ)) (e : SimilarEntry)
    (h : pearsonStep target min_common_books cand = some e) :
    0 < pearsonTargetSq target cand.2 ∧ 0 < pearsonCandSq target cand.2 ∧
    0 < pearsonDenominator target cand.2 ∧
    e.correlation = (pearsonNum target cand.2 : ℝ) / pearsonDenominator target cand.2 := by
  rw [pearsonStep] at h
  by_cases h1 : (commonBooks target cand.2).length < min_common_books
  · rw [if_pos h1] at h; exact absurd h (by simp)
  rw [if_neg h1] at h
  by_cases h2 : pearsonTargetSq target cand.2 = 0 ∨ pearsonCandSq target cand.2 = 0
  · rw [if_pos h2] at h; exact absurd h (by simp)
  rw [if_neg h2] at h
  push_neg at h2
  have htsq : 0 < pearsonTargetSq target cand.2 :=
    lt_of_le_of_ne (dotProduct_self_nonneg _) (Ne.symm h2.1)
  have hcsq : 0 < pearsonCandSq target cand.2 :=
    lt_of_le_of_ne (dotProduct_self_nonneg _) (Ne.symm h2.2)
  have hden : 0 < pearsonDenominator target cand.2 := by
    rw [pearsonDenominator]
    apply Real.sqrt_pos.mpr
    apply mul_pos
    · exact_mod_cast htsq
    · exact_mod_cast hcsq
  refine ⟨htsq, hcsq, hden, ?_⟩
  by_cases h3 : (0.3 : ℝ) < pearsonCorrelation target cand.2
  · rw [if_pos h3] at h
    have he := (Option.some.inj h).symm
    rw [he]
    rw [pearsonCorrelation, if_pos hden]
  · rw [if_neg h3] at h
    exact absurd h (by simp)

/-- C6: every entry returned by the Neighbor Similarity Finder comes from a
candidate whose mean-centered common-rating vectors both have strictly
positive sum of squares — zero-variance candidates are excluded by lines
109-110 — so the correlation division is only ever performed with a strictly
positive denominator (no division by zero, no NaN in the output). -/
theorem find_similar_users_no_zero_variance (target : List (String × ℚ))
    (candidate_users : List (Int × List (String × ℚ))) (min_common_books limit : ℕ) :
    ∀ e ∈ find_similar_users target candidate_users min_common_books limit,
      ∃ cand ∈ candidate_users.take 500,
        pearsonStep target min_common_books cand = some e ∧
        0 < pearsonTargetSq target cand.2 ∧
        0 < pearsonCandSq target cand.2 ∧
        0 < pearsonDenominator target cand.2 ∧
        e.correlation = (pearsonNum target cand.2 : ℝ) /
          pearsonDenominator target cand.2 := by
  intro e he
  rw [find_similar_users] at he
  by_cases htarget : target.isEmpty
  · rw [if_pos htarget] at he
    exact absurd he (by simp)
  · rw [if_neg htarget] at he
    have he1 := List.mem_of_mem_take he
    rw [mem_sortByDesc] at he1
    rcases List.mem_filterMap.mp he1 with ⟨cand, hcand, hstep⟩
    rcases pearsonStep_some target min_common_books cand e hstep with ⟨h1, h2, h3, h4⟩
    exact ⟨cand, hcand, hstep, h1, h2, h3, h4⟩

/-- The target user's rating rows for the witness of
`find_similar_users_no_zero_variance`. -/
def targetRatingsWit : List (String × ℚ) := [("a", 1), ("b", 2)]

/-- A candidate user (id 7) with the same two ratings as the target. -/
def candUserWit : Int × List (String × ℚ) := (7, [("a", 1), ("b", 2)])

theorem pearsonTargetSq_wit : pearsonTargetSq targetRatingsWit candUserWit.2 = 1 / 2 := by
  simp [pearsonTargetSq, pearsonTargetVals, commonBooks, centeredVals, dotProduct,
    dedupFirst, dedupFirstAux, targetRatingsWit, candUserWit, List.lookup]
  norm_num

theorem pearsonCandSq_wit : pearsonCandSq targetRatingsWit candUserWit.2 = 1 / 2 := by
  simp [pearsonCandSq, pearsonCandVals, commonBooks, centeredVals, dotProduct,
    dedupFirst, dedupFirstAux, targetRatingsWit, candUserWit, List.lookup]
  norm_num

theorem pearsonNum_wit : pearsonNum targetRatingsWit candUserWit.2 = 1 / 2 := by
  simp [pearsonNum, pearsonTargetVals, pearsonCandVals, commonBooks, centeredVals,
    dotProduct, dedupFirst, dedupFirstAux, targetRatingsWit, candUserWit, List.lookup]
  norm_num

theorem pearsonDenominator_wit :
    pearsonDenominator targetRatingsWit candUserWit.2 = 1 / 2 := by
  rw [pearsonDenominator, pearsonTargetSq_wit, pearsonCandSq_wit]
  rw [show (((1 / 2 : ℚ) : ℝ) * ((1 / 2 : ℚ) : ℝ)) = (1 / 2 : ℝ) * (1 / 2 : ℝ) by
    push_cast; ring]
  exact Real.sqrt_mul_self (by norm_num)

theorem pearsonCorrelation_wit :
    pearsonCorrelation targetRatingsWit candUserWit.2 = 1 := by
  rw [pearsonCorrelation, pearsonDenominator_wit, if_pos (by norm_num : (0:ℝ) < 1 / 2)]
  rw [pearsonNum_wit]
  push_cast
  norm_num

theorem pearsonStep_wit :
    pearsonStep targetRatingsWit 2 candUserWit = some ⟨7, 1, 2⟩ := by
  have hcommon : commonBooks targetRatingsWit candUserWit.2 = ["a", "b"] := by rfl
  rw [pearsonStep, hcommon]
  rw [if_neg (by norm_num : ¬ (["a", "b"] : List String).length < 2)]
  rw [if_neg (by rw [pearsonTargetSq_wit, pearsonCandSq_wit]; norm_num)]
  rw [pearsonCorrelation_wit]
  rw [if_pos (by norm_num : (0.3 : ℝ) < 1)]
  rfl

/-- Witness for `find_similar_users_no_zero_variance`: with the target
ratings `[("a",1),("b",2)]` and the identical candidate user 7, the finder
returns the entry (7, correlation 1, 2 common books), and the theorem applied
to it produces the positive-variance certificate. -/
theorem find_similar_users_no_zero_variance_witness :
    ∃ cand ∈ [candUserWit].take 500,
      pearsonStep targetRatingsWit 2 cand = some ⟨7, 1, 2⟩ ∧
      0 < pearsonTargetSq targetRatingsWit cand.2 ∧
      0 < pearsonCandSq targetRatingsWit cand.2 ∧
      0 < pearsonDenominator targetRatingsWit cand.2 ∧
      SimilarEntry.correlation ⟨7, 1, 2⟩ =
        (pearsonNum targetRatingsWit cand.2 : ℝ) /
          pearsonDenominator targetRatingsWit cand.2 := by
  have hfind : find_similar_users targetRatingsWit [candUserWit] 2 20 = [⟨7, 1, 2⟩] := by
    rw [find_similar_users]
    rw [if_neg (by decide : ¬ targetRatingsWit.isEmpty = true)]
    rw [show ([candUserWit].take 500) = [candUserWit] by rfl]
    rw [List.filterMap_cons, pearsonStep_wit, List.filterMap_nil]
    rfl
  exact find_similar_users_no_zero_variance targetRatingsWit [candUserWit] 2 20
    ⟨7, 1, 2⟩ (by rw [hfind]; exact List.mem_singleton.mpr rfl)
